import Mathlib

/-!
Verification of the secureVoting repository core (vote hashing, encrypted
storage facade, voting submission flow, result tabulation).

The embedding is shallow: TypeScript record types become Lean structures,
collections become lists, the browser key-value store becomes a function
`String → Option String`, and JavaScript objects used as string-keyed maps
become association lists whose lookup returns the most recent binding.
The CryptoJS library functions (SHA-256, SHA-512, AES) and JSON
serialization are external to the repository; they are modelled as
parameters (`JsLibs`, `Codec`), and the repository code that calls them is
translated faithfully.
-/

namespace SecureVoting

/-- The signing secret from src/utils/crypto.ts. -/
def SECRET_KEY : String := "voting-platform-secret-2024"

/-- The encryption secret from src/utils/crypto.ts. -/
def ENCRYPTION_KEY : String := "secure-voting-encryption-key-2024"

/-- External CryptoJS primitives, abstracted: a 256-bit digest, a 512-bit
digest, and keyed AES encryption and decryption over strings. -/
structure JsLibs where
  sha256 : String → String
  sha512 : String → String
  aesEncrypt : String → String → String
  aesDecrypt : String → String → String

/-- The field tuple taken by hashVote in src/utils/crypto.ts. -/
structure VoteFields where
  electionId : String
  positionId : String
  candidateId : String
  voterToken : String
  timestamp : String
deriving DecidableEq

/-- The template-literal concatenation inside hashVote:
electionId-positionId-candidateId-voterToken-timestamp. -/
def voteString (v : VoteFields) : String :=
  v.electionId ++ "-" ++ v.positionId ++ "-" ++ v.candidateId ++ "-" ++
    v.voterToken ++ "-" ++ v.timestamp

/-- hashVote from src/utils/crypto.ts: SHA256(voteString + SECRET_KEY). -/
def hashVote (lib : JsLibs) (v : VoteFields) : String :=
  lib.sha256 (voteString v ++ SECRET_KEY)

/-- Two vote field tuples differ in exactly one of the five fields. -/
def differInOneField (v w : VoteFields) : Prop :=
  (v.electionId ≠ w.electionId ∧ v.positionId = w.positionId ∧
    v.candidateId = w.candidateId ∧ v.voterToken = w.voterToken ∧
    v.timestamp = w.timestamp) ∨
  (v.electionId = w.electionId ∧ v.positionId ≠ w.positionId ∧
    v.candidateId = w.candidateId ∧ v.voterToken = w.voterToken ∧
    v.timestamp = w.timestamp) ∨
  (v.electionId = w.electionId ∧ v.positionId = w.positionId ∧
    v.candidateId ≠ w.candidateId ∧ v.voterToken = w.voterToken ∧
    v.timestamp = w.timestamp) ∨
  (v.electionId = w.electionId ∧ v.positionId = w.positionId ∧
    v.candidateId = w.candidateId ∧ v.voterToken ≠ w.voterToken ∧
    v.timestamp = w.timestamp) ∨
  (v.electionId = w.electionId ∧ v.positionId = w.positionId ∧
    v.candidateId = w.candidateId ∧ v.voterToken = w.voterToken ∧
    v.timestamp ≠ w.timestamp)

instance (v w : VoteFields) : Decidable (differInOneField v w) := by
  unfold differInOneField; infer_instance

/-! Data model from src/types/index.ts.  Optional `any`-typed fields that
the modelled code never writes or reads (SecurityLog.metadata,
Candidate.photo) are omitted.  JavaScript objects used as maps
(User.hasVoted, User.votingTokens) are association lists; a spread update
prepends the new binding and lookup returns the most recent one. -/

inductive Role
  | admin
  | voter
deriving DecidableEq

def jsLookup {β : Type} (m : List (String × β)) (k : String) : Option β :=
  (m.find? (fun p => p.1 == k)).map (fun p => p.2)

structure User where
  id : String
  email : String
  name : String
  role : Role
  isVerified : Bool
  hasVoted : List (String × Bool)
  votingTokens : List (String × String)
  registrationDate : String
  lastLogin : String
  password : String
deriving DecidableEq

structure Candidate where
  id : String
  name : String
  position : String
  description : String
  manifesto : String
deriving DecidableEq

structure Position where
  id : String
  title : String
  description : String
  candidates : List Candidate
  maxVotes : Nat
deriving DecidableEq

structure Election where
  id : String
  title : String
  description : String
  startDate : String
  endDate : String
  positions : List Position
  isActive : Bool
  totalVotes : Nat
  createdBy : String
  createdAt : String
  cryptographicHash : String
deriving DecidableEq

structure Vote where
  id : String
  electionId : String
  positionId : String
  candidateId : String
  voterToken : String
  timestamp : String
  cryptographicHash : String
  verified : Bool
deriving DecidableEq

structure VotingSession where
  sessionId : String
  voterToken : String
  electionId : String
  isActive : Bool
  expiresAt : String
  ipAddress : String
  userAgent : String
deriving DecidableEq

inductive LogType
  | login
  | vote_cast
  | double_vote_attempt
  | invalid_access
  | admin_action
  | session_expired
  | suspicious_activity
deriving DecidableEq

inductive Severity
  | low
  | medium
  | high
  | critical
deriving DecidableEq

structure SecurityLog where
  id : String
  type : LogType
  message : String
  userId : Option String
  electionId : Option String
  timestamp : String
  ipAddress : String
  severity : Severity
deriving DecidableEq

structure CandidateResult where
  candidateId : String
  candidateName : String
  voteCount : Nat
  percentage : ℚ
deriving DecidableEq

structure PositionResult where
  positionId : String
  positionTitle : String
  candidates : List CandidateResult
  totalVotes : Nat
deriving DecidableEq

structure ElectionResults where
  electionId : String
  positions : List PositionResult
  totalParticipants : Nat
  turnoutPercentage : ℚ
  verificationHash : String
deriving DecidableEq

/-- generateSecureHash from src/utils/crypto.ts: SHA512(data + SECRET_KEY). -/
def generateSecureHash (lib : JsLibs) (data : String) : String :=
  lib.sha512 (data ++ SECRET_KEY)

/-- verifyVoteIntegrity from src/utils/crypto.ts: recompute hashVote over the
record's own fields and compare with its cryptographicHash. -/
def verifyVoteIntegrity (lib : JsLibs) (vote : Vote) : Bool :=
  let expectedHash := hashVote lib
    { electionId := vote.electionId
      positionId := vote.positionId
      candidateId := vote.candidateId
      voterToken := vote.voterToken
      timestamp := vote.timestamp }
  expectedHash == vote.cryptographicHash

/-! The SecureStorage facade (declared alongside src/utils/crypto.ts).  The
browser localStorage is a
function `String → Option String`; JSON.stringify and JSON.parse for a
collection type are an abstract `Codec`.  The facade's private decrypt wraps
JSON.parse in try/catch returning null, modelled by `Option`. -/

structure Codec (α : Type) where
  stringify : α → String
  parse : String → Option α

def encryptSensitiveData (lib : JsLibs) (data : String) : String :=
  lib.aesEncrypt ENCRYPTION_KEY data

def decryptSensitiveData (lib : JsLibs) (encryptedData : String) : String :=
  lib.aesDecrypt ENCRYPTION_KEY encryptedData

/-- SecureStorage's private encrypt: stringify then encrypt. -/
def storageEncrypt {α : Type} (lib : JsLibs) (c : Codec α) (data : α) :
    String :=
  encryptSensitiveData lib (c.stringify data)

/-- SecureStorage's private decrypt: decrypt then parse, with parse failure
(the try/catch returning null) as `none`. -/
def storageDecrypt {α : Type} (lib : JsLibs) (c : Codec α)
    (encryptedData : String) : Option α :=
  c.parse (decryptSensitiveData lib encryptedData)

def getUsers (lib : JsLibs) (c : Codec (List User))
    (localStore : String → Option String) : List User :=
  match localStore "voting_users" with
  | some encrypted => (storageDecrypt lib c encrypted).getD []
  | none => []

def getElections (lib : JsLibs) (c : Codec (List Election))
    (localStore : String → Option String) : List Election :=
  match localStore "voting_elections" with
  | some encrypted => (storageDecrypt lib c encrypted).getD []
  | none => []

def getVotes (lib : JsLibs) (c : Codec (List Vote))
    (localStore : String → Option String) : List Vote :=
  match localStore "voting_votes" with
  | some encrypted => (storageDecrypt lib c encrypted).getD []
  | none => []

def getVotingSessions (lib : JsLibs) (c : Codec (List VotingSession))
    (localStore : String → Option String) : List VotingSession :=
  match localStore "voting_sessions" with
  | some encrypted => (storageDecrypt lib c encrypted).getD []
  | none => []

def getSecurityLogs (lib : JsLibs) (c : Codec (List SecurityLog))
    (localStore : String → Option String) : List SecurityLog :=
  match localStore "voting_security_logs" with
  | some encrypted => (storageDecrypt lib c encrypted).getD []
  | none => []

def getElectionResults (lib : JsLibs) (c : Codec (List ElectionResults))
    (localStore : String → Option String) : List ElectionResults :=
  match localStore "voting_results" with
  | some encrypted => (storageDecrypt lib c encrypted).getD []
  | none => []

def getCurrentUser (lib : JsLibs) (c : Codec User)
    (localStore : String → Option String) : Option User :=
  match localStore "voting_current_user" with
  | some encrypted => storageDecrypt lib c encrypted
  | none => none

/-- hasUserVotedInElection from the SecureStorage facade, over the decoded
users
collection: find the user, then check hasVoted[electionId] === true. -/
def hasUserVotedInElection (users : List User) (userId electionId : String) :
    Bool :=
  match users.find? (fun u => u.id == userId) with
  | some user => jsLookup user.hasVoted electionId == some true
  | none => false

/-- The adminUser record built inside initializeAdminAccount. -/
def adminRecord (lib : JsLibs) (nowMs nowIso : String) : User :=
  { id := "admin-" ++ nowMs
    email := "admin@bnmit.in"
    password := generateSecureHash lib "VoteBNMIT2024!Admin"
    name := "System Administrator"
    role := Role.admin
    isVerified := true
    hasVoted := []
    votingTokens := []
    registrationDate := nowIso
    lastLogin := nowIso }

/-- initializeAdminAccount from the SecureStorage facade, as the
transformation
it applies to the decoded users collection: if no admin-role user exists,
append the fixed admin record (id from Date.now, ISO timestamps passed in). -/
def initializeAdminAccount (lib : JsLibs) (nowMs nowIso : String)
    (users : List User) : List User :=
  match users.find? (fun u => u.role == Role.admin) with
  | some _ => users
  | none => users ++ [adminRecord lib nowMs nowIso]

/-! Stateful flows.  The decoded contents of the seven storage collections
form a `StorageState`; each flow from the React components is the state
transformation its sequence of storage reads and writes performs.  Values
produced by the JS runtime during a flow (Date.now, new Date().toISOString,
random tokens, navigator.userAgent) are passed in as parameters. -/

structure StorageState where
  users : List User
  elections : List Election
  votes : List Vote
  sessions : List VotingSession
  logs : List SecurityLog
  currentUser : Option User
deriving DecidableEq

/-- The argument of addSecurityLog: a SecurityLog without id/timestamp. -/
structure LogInput where
  type : LogType
  message : String
  userId : Option String
  electionId : Option String
  ipAddress : String
  severity : Severity
deriving DecidableEq

/-- addSecurityLog from the SecureStorage facade: append the entry with a
fresh
id (Date.now().toString()) and timestamp (new Date().toISOString()). -/
def addSecurityLog (nowMs nowIso : String) (logs : List SecurityLog)
    (log : LogInput) : List SecurityLog :=
  logs ++ [{ id := nowMs
             type := log.type
             message := log.message
             userId := log.userId
             electionId := log.electionId
             timestamp := nowIso
             ipAddress := log.ipAddress
             severity := log.severity }]

inductive FlowEntry
  | cancelled
  | started
deriving DecidableEq

inductive SubmitResult
  | blocked
  | completed
deriving DecidableEq

/-- createVotingSession from the VotingInterface component
(src/components/SecurityMonitor.tsx): push a new
active session (fresh token and session id, 30-minute expiry) and record the
voter token in the acting user's votingTokens map. -/
def createVotingSession (election : Election) (user : User)
    (voterToken sessionId expiresAt userAgent : String) (st : StorageState) :
    StorageState × VotingSession :=
  let session : VotingSession :=
    { sessionId := sessionId
      voterToken := voterToken
      electionId := election.id
      isActive := true
      expiresAt := expiresAt
      ipAddress := "localhost"
      userAgent := userAgent }
  let sessions := st.sessions ++ [session]
  let updatedUsers := st.users.map (fun u =>
    if u.id == user.id then
      { u with votingTokens := (election.id, voterToken) :: u.votingTokens }
    else u)
  ({ st with sessions := sessions, users := updatedUsers }, session)

/-- The VotingInterface mount effect (src/components/SecurityMonitor.tsx):
if the user already voted in this election, log a high-severity
double_vote_attempt and cancel before any session is created; otherwise
create the voting session and start the wizard. -/
def votingInterfaceInit (election : Election) (user : User)
    (voterToken sessionId expiresAt userAgent nowMs nowIso : String)
    (st : StorageState) : StorageState × FlowEntry :=
  if hasUserVotedInElection st.users user.id election.id then
    ({ st with logs := addSecurityLog nowMs nowIso st.logs
                  ({ type := LogType.double_vote_attempt
                     message := "User attempted to vote again in election: " ++
                       election.title
                     userId := some user.id
                     electionId := some election.id
                     ipAddress := "localhost"
                     severity := Severity.high }) }, FlowEntry.cancelled)
  else
    ((createVotingSession election user voterToken sessionId expiresAt
        userAgent st).1, FlowEntry.started)

/-- The Vote record constructed for one selected (positionId, candidateId)
entry inside submitVotes; `freshId` supplies the Date.now+random record id. -/
def voteRecord (lib : JsLibs) (election : Election)
    (votingSession : VotingSession) (timestamp : String)
    (freshId : String → String) (sel : String × String) : Vote :=
  { id := freshId sel.1
    electionId := election.id
    positionId := sel.1
    candidateId := sel.2
    voterToken := votingSession.voterToken
    timestamp := timestamp
    cryptographicHash := hashVote lib
      { electionId := election.id
        positionId := sel.1
        candidateId := sel.2
        voterToken := votingSession.voterToken
        timestamp := timestamp }
    verified := true }

/-- submitVotes from the VotingInterface component
(src/components/SecurityMonitor.tsx).  `selections` is the
in-memory votes object as its entry list (one entry per position, initially
empty string).  The guard re-checks hasUserVotedInElection and blocks with a
critical double_vote_attempt log; otherwise one Vote per non-empty selection
is appended, the user's hasVoted flag is set, the current-user record is
refreshed, the election's totalVotes is incremented by the number of new
votes, the session is deactivated, and a vote_cast entry is logged. -/
def submitVotes (lib : JsLibs) (election : Election) (user : User)
    (votingSession : VotingSession) (selections : List (String × String))
    (freshId : String → String) (nowMs nowIso : String) (st : StorageState) :
    StorageState × SubmitResult :=
  if hasUserVotedInElection st.users user.id election.id then
    ({ st with logs := addSecurityLog nowMs nowIso st.logs
                  ({ type := LogType.double_vote_attempt
                     message := "Double vote attempt blocked during submission for election: "
                       ++ election.title
                     userId := some user.id
                     electionId := some election.id
                     ipAddress := "localhost"
                     severity := Severity.critical }) }, SubmitResult.blocked)
  else
    let timestamp := nowIso
    let newVotes := (selections.filter (fun sel => sel.2 != "")).map
      (voteRecord lib election votingSession timestamp freshId)
    let allVotes := st.votes ++ newVotes
    let updatedUsers := st.users.map (fun u =>
      if u.id == user.id then
        { u with hasVoted := (election.id, true) :: u.hasVoted }
      else u)
    let currentUser := match updatedUsers.find? (fun u => u.id == user.id) with
      | some updatedUser => some updatedUser
      | none => st.currentUser
    let updatedElections := st.elections.map (fun e =>
      if e.id == election.id then
        { e with totalVotes := e.totalVotes + newVotes.length }
      else e)
    let updatedSessions := st.sessions.map (fun s =>
      if s.sessionId == votingSession.sessionId then
        { s with isActive := false }
      else s)
    let logs := addSecurityLog nowMs nowIso st.logs
      { type := LogType.vote_cast
        message := "Vote successfully cast in election: " ++ election.title
        userId := some user.id
        electionId := some election.id
        ipAddress := "localhost"
        severity := Severity.low }
    ({ users := updatedUsers
       elections := updatedElections
       votes := allVotes
       sessions := updatedSessions
       logs := logs
       currentUser := currentUser }, SubmitResult.completed)

/-- deleteElection from src/components/ElectionManagement.tsx: drop the
election, drop its votes, and log an admin_action entry. -/
def deleteElection (electionId : String) (nowMs nowIso : String)
    (st : StorageState) : StorageState :=
  let updatedElections := st.elections.filter (fun e => !(e.id == electionId))
  let updatedVotes := st.votes.filter (fun v => !(v.electionId == electionId))
  { st with
    elections := updatedElections
    votes := updatedVotes
    logs := addSecurityLog nowMs nowIso st.logs
      { type := LogType.admin_action
        message := "Election deleted: " ++
          (((st.elections.find? (fun e => e.id == electionId)).map
            (fun e => e.title)).getD "undefined")
        userId := st.currentUser.map (fun u => u.id)
        electionId := some electionId
        ipAddress := "localhost"
        severity := Severity.medium } }

/-! Result tabulation from src/components/ResultsViewer.tsx.  JavaScript
numbers are modelled as rationals (every value computed here is exact).
Array.prototype.sort with comparator (a, b) => b.voteCount - a.voteCount is
a stable descending sort; a stable sort under a total preorder has a unique
result, realized here by insertion sort under `byVotesDesc`. -/

def byVotesDesc (a b : CandidateResult) : Prop :=
  b.voteCount ≤ a.voteCount

instance : DecidableRel byVotesDesc := fun _ _ => Nat.decLe _ _

instance : IsTotal CandidateResult byVotesDesc :=
  ⟨fun _ _ => Nat.le_total _ _⟩

instance : IsTrans CandidateResult byVotesDesc :=
  ⟨fun _ _ _ hab hbc => Nat.le_trans hbc hab⟩

/-- getVotesByElection from the SecureStorage facade. -/
def getVotesByElection (votes : List Vote) (electionId : String) :
    List Vote :=
  votes.filter (fun vote => vote.electionId == electionId)

/-- One entry of the candidateResults array in calculateResults. -/
def candidateResult (positionVotes : List Vote) (totalPositionVotes : Nat)
    (candidate : Candidate) : CandidateResult :=
  let candidateVotes :=
    (positionVotes.filter (fun v => v.candidateId == candidate.id)).length
  { candidateId := candidate.id
    candidateName := candidate.name
    voteCount := candidateVotes
    percentage :=
      if totalPositionVotes > 0 then
        ((candidateVotes : ℚ) / (totalPositionVotes : ℚ)) * 100
      else 0 }

/-- One entry of the positionResults array in calculateResults: per-candidate
counts and percentages, sorted by vote count descending. -/
def positionResult (votes : List Vote) (position : Position) :
    PositionResult :=
  let positionVotes := votes.filter (fun v => v.positionId == position.id)
  let totalPositionVotes := positionVotes.length
  let candidateResults :=
    position.candidates.map (candidateResult positionVotes totalPositionVotes)
  { positionId := position.id
    positionTitle := position.title
    candidates := List.insertionSort byVotesDesc candidateResults
    totalVotes := totalPositionVotes }

/-- generateElectionVerificationHash from src/utils/crypto.ts, with the JSON
serialization of the results object abstracted as a parameter. -/
def generateElectionVerificationHash (lib : JsLibs)
    (stringifyResults : ElectionResults → String) (results : ElectionResults) :
    String :=
  lib.sha256 (stringifyResults results ++ SECRET_KEY)

/-- calculateResults from src/components/ResultsViewer.tsx. -/
def calculateResults (lib : JsLibs)
    (stringifyResults : ElectionResults → String) (users : List User)
    (allVotes : List Vote) (election : Election) : ElectionResults :=
  let votes := getVotesByElection allVotes election.id
  let uniqueVoters := (votes.map (fun v => v.voterToken)).dedup.length
  let totalRegisteredVoters :=
    (users.filter (fun u => u.role == Role.voter)).length
  let positionResults := election.positions.map (positionResult votes)
  let results : ElectionResults :=
    { electionId := election.id
      positions := positionResults
      totalParticipants := uniqueVoters
      turnoutPercentage :=
        if totalRegisteredVoters > 0 then
          ((uniqueVoters : ℚ) / (totalRegisteredVoters : ℚ)) * 100
        else 0
      verificationHash := "" }
  { results with
    verificationHash :=
      generateElectionVerificationHash lib stringifyResults results }

/-- The winner tag computed in the results view (isWinner at its call site):
the first-ranked candidate, and only when its vote count is positive. -/
def positionWinner (pr : PositionResult) : Option CandidateResult :=
  match pr.candidates with
  | [] => none
  | c :: _ => if c.voteCount > 0 then some c else none

/-- Concrete instantiation of the JS primitives used by witnesses: the
identity digest (injective) and identity AES. -/
def lib0 : JsLibs :=
  { sha256 := fun s => s
    sha512 := fun s => s
    aesEncrypt := fun _ s => s
    aesDecrypt := fun _ s => s }

def vf0 : VoteFields :=
  { electionId := "e1", positionId := "p1", candidateId := "c1"
    voterToken := "tok", timestamp := "ts" }

def vf1 : VoteFields :=
  { electionId := "e2", positionId := "p1", candidateId := "c1"
    voterToken := "tok", timestamp := "ts" }

/-- A trivially faithful serializer over Unit, used by witnesses. -/
def codecU : Codec Unit :=
  { stringify := fun _ => "u"
    parse := fun s => if s = "u" then some () else none }

/-- A serializer whose parse always fails, standing for a corrupted blob. -/
def codecNone (α : Type) : Codec α :=
  { stringify := fun _ => ""
    parse := fun _ => none }

/-- A store holding an undecryptable blob under every key. -/
def garbageStore : String → Option String := fun _ => some "garbage"

def cand0 : Candidate :=
  { id := "c1", name := "Alice", position := "p1", description := ""
    manifesto := "" }

def pos0 : Position :=
  { id := "p1", title := "President", description := ""
    candidates := [cand0], maxVotes := 1 }

def election0 : Election :=
  { id := "e1", title := "Student Council", description := ""
    startDate := "2024-01-01", endDate := "2024-01-02"
    positions := [pos0], isActive := true, totalVotes := 0
    createdBy := "admin-1", createdAt := "2024-01-01"
    cryptographicHash := "h" }

def voter0 : User :=
  { id := "u1", email := "v@bnmit.in", name := "A Voter"
    role := Role.voter, isVerified := true, hasVoted := []
    votingTokens := [], registrationDate := "2024-01-01"
    lastLogin := "2024-01-01", password := "pw" }

/-- A voter whose hasVoted flag for election e1 is already set. -/
def votedVoter : User :=
  { voter0 with hasVoted := [("e1", true)] }

def sess0 : VotingSession :=
  { sessionId := "s1", voterToken := "tok1", electionId := "e1"
    isActive := true, expiresAt := "2024-01-01T01:00:00Z"
    ipAddress := "localhost", userAgent := "ua" }

/-- State entering a fresh submission: one voter, one election, one active
session, no votes. -/
def st0 : StorageState :=
  { users := [voter0], elections := [election0], votes := []
    sessions := [sess0], logs := [], currentUser := some voter0 }

/-- State in which the acting user has already voted in election e1. -/
def st1 : StorageState :=
  { users := [votedVoter], elections := [election0], votes := []
    sessions := [], logs := [], currentUser := some votedVoter }

/-- The vote record the fresh submission from st0 constructs. -/
def voteRec0 : Vote :=
  voteRecord lib0 election0 sess0 "t0" (fun _ => "vid") ("p1", "c1")

def candA : Candidate :=
  { id := "A", name := "Alice", position := "pr", description := ""
    manifesto := "" }

def candB : Candidate :=
  { id := "B", name := "Bob", position := "pr", description := ""
    manifesto := "" }

def candC : Candidate :=
  { id := "C", name := "Cara", position := "pr", description := ""
    manifesto := "" }

def candD : Candidate :=
  { id := "D", name := "Dan", position := "tz", description := ""
    manifesto := "" }

def posPr : Position :=
  { id := "pr", title := "President", description := ""
    candidates := [candA, candB, candC], maxVotes := 1 }

def posTz : Position :=
  { id := "tz", title := "Treasurer", description := ""
    candidates := [candD], maxVotes := 1 }

def election2 : Election :=
  { id := "e2", title := "Club Election", description := ""
    startDate := "2024-01-01", endDate := "2024-01-02"
    positions := [posPr, posTz], isActive := true, totalVotes := 4
    createdBy := "admin-1", createdAt := "2024-01-01"
    cryptographicHash := "h" }

def mkBallot (i : String) (positionId candidateId voterToken : String) :
    Vote :=
  { id := i, electionId := "e2", positionId := positionId
    candidateId := candidateId, voterToken := voterToken
    timestamp := "t", cryptographicHash := "h", verified := true }

/-- Ballots for the C3 example: A receives 3 votes, B receives 1, C none,
and the Treasurer position receives none at all. -/
def ballots2 : List Vote :=
  [mkBallot "1" "pr" "A" "t1", mkBallot "2" "pr" "A" "t2",
   mkBallot "3" "pr" "A" "t3", mkBallot "4" "pr" "B" "t4"]

/-- A trivial serialization of results, for concrete evaluation. -/
def stringifyResults0 : ElectionResults → String := fun _ => ""

/-! Theorems. -/

lemma str_append_cancel_right {a b c : String} (h : a ++ c = b ++ c) :
    a = b := by
  have hd := congrArg String.data h
  simp only [String.data_append] at hd
  exact String.ext (List.append_cancel_right hd)

lemma voteString_ne_of_differInOneField {v w : VoteFields}
    (hne : differInOneField v w) : voteString v ≠ voteString w := by
  obtain ⟨e1, p1, c1, t1, s1⟩ := v
  obtain ⟨e2, p2, c2, t2, s2⟩ := w
  intro h
  have hd := congrArg String.data h
  simp only [voteString, String.data_append, List.append_assoc] at hd
  rcases hne with ⟨hx, hp, hc, ht, hs⟩ | ⟨he, hx, hc, ht, hs⟩ |
    ⟨he, hp, hx, ht, hs⟩ | ⟨he, hp, hc, hx, hs⟩ | ⟨he, hp, hc, ht, hx⟩ <;> first
  | (subst hp; subst hc; subst ht; subst hs
     exact hx (String.ext (List.append_cancel_right hd)))
  | (subst he; subst hc; subst ht; subst hs
     exact hx (String.ext (List.append_cancel_right
       (List.append_cancel_left (List.append_cancel_left hd)))))
  | (subst he; subst hp; subst ht; subst hs
     exact hx (String.ext (List.append_cancel_right
       (List.append_cancel_left (List.append_cancel_left
         (List.append_cancel_left (List.append_cancel_left hd)))))))
  | (subst he; subst hp; subst hc; subst hs
     exact hx (String.ext (List.append_cancel_right
       (List.append_cancel_left (List.append_cancel_left
         (List.append_cancel_left (List.append_cancel_left
           (List.append_cancel_left (List.append_cancel_left hd)))))))))
  | (subst he; subst hp; subst hc; subst ht
     exact hx (String.ext
       (List.append_cancel_left (List.append_cancel_left
         (List.append_cancel_left (List.append_cancel_left
           (List.append_cancel_left (List.append_cancel_left
             (List.append_cancel_left (List.append_cancel_left hd))))))))))

/-- C1: hashVote is deterministic (identical field tuples give identical
output), and, when the underlying 256-bit digest is collision-free
(injective), any two tuples that differ in exactly one field hash to
different outputs. -/
theorem hashVote_deterministic_and_single_field_sensitive (lib : JsLibs)
    (hinj : Function.Injective lib.sha256) (v w : VoteFields) :
    (v = w → hashVote lib v = hashVote lib w) ∧
    (differInOneField v w → hashVote lib v ≠ hashVote lib w) := by
  constructor
  · intro h; rw [h]
  · intro hdiff h
    exact voteString_ne_of_differInOneField hdiff
      (str_append_cancel_right (hinj h))

theorem hashVote_single_field_witness :
    hashVote lib0 vf0 = hashVote lib0 vf0 ∧
    hashVote lib0 vf0 ≠ hashVote lib0 vf1 :=
  ⟨(hashVote_deterministic_and_single_field_sensitive lib0
      (fun _ _ h => h) vf0 vf0).1 rfl,
   (hashVote_deterministic_and_single_field_sensitive lib0
      (fun _ _ h => h) vf0 vf1).2 (by decide)⟩

/-- C5: when the cipher inverts correctly (AES round trip) and the JSON
codec is faithful, decryption inverts encryption, both for the raw string
functions encryptSensitiveData/decryptSensitiveData and for the storage
facade's encrypt/decrypt wrappers. -/
theorem encrypt_decrypt_round_trip {α : Type} (lib : JsLibs) (c : Codec α)
    (haes : ∀ s,
      lib.aesDecrypt ENCRYPTION_KEY (lib.aesEncrypt ENCRYPTION_KEY s) = s)
    (hjson : ∀ x, c.parse (c.stringify x) = some x) :
    (∀ s, decryptSensitiveData lib (encryptSensitiveData lib s) = s) ∧
    (∀ x, storageDecrypt lib c (storageEncrypt lib c x) = some x) := by
  refine ⟨fun s => haes s, fun x => ?_⟩
  simp only [storageDecrypt, storageEncrypt, decryptSensitiveData,
    encryptSensitiveData, haes, hjson]

theorem encrypt_decrypt_round_trip_witness :
    decryptSensitiveData lib0 (encryptSensitiveData lib0 "ballot") =
      "ballot" ∧
    storageDecrypt lib0 codecU (storageEncrypt lib0 codecU ()) = some () :=
  ⟨(encrypt_decrypt_round_trip lib0 codecU (fun _ => rfl)
      (fun x => by cases x; decide)).1 "ballot",
   (encrypt_decrypt_round_trip lib0 codecU (fun _ => rfl)
      (fun x => by cases x; decide)).2 ()⟩

/-- C6: when the stored blob under a collection's key fails to decrypt or
deserialize, each storage read returns the empty collection (none for the
current-user record); no error escapes, as the reads are total. -/
theorem storage_reads_fail_soft (lib : JsLibs)
    (localStore : String → Option String) (cu : Codec (List User))
    (ce : Codec (List Election)) (cv : Codec (List Vote))
    (cs : Codec (List VotingSession)) (cl : Codec (List SecurityLog))
    (cr : Codec (List ElectionResults)) (cc : Codec User) :
    (∀ b, localStore "voting_users" = some b →
      storageDecrypt lib cu b = none → getUsers lib cu localStore = []) ∧
    (∀ b, localStore "voting_elections" = some b →
      storageDecrypt lib ce b = none → getElections lib ce localStore = []) ∧
    (∀ b, localStore "voting_votes" = some b →
      storageDecrypt lib cv b = none → getVotes lib cv localStore = []) ∧
    (∀ b, localStore "voting_sessions" = some b →
      storageDecrypt lib cs b = none →
      getVotingSessions lib cs localStore = []) ∧
    (∀ b, localStore "voting_security_logs" = some b →
      storageDecrypt lib cl b = none →
      getSecurityLogs lib cl localStore = []) ∧
    (∀ b, localStore "voting_results" = some b →
      storageDecrypt lib cr b = none →
      getElectionResults lib cr localStore = []) ∧
    (∀ b, localStore "voting_current_user" = some b →
      storageDecrypt lib cc b = none →
      getCurrentUser lib cc localStore = none) := by
  refine ⟨?_, ?_, ?_, ?_, ?_, ?_, ?_⟩ <;>
    (intro b hb hd
     simp [getUsers, getElections, getVotes, getVotingSessions,
       getSecurityLogs, getElectionResults, getCurrentUser, hb, hd])

theorem storage_reads_fail_soft_witness :
    getUsers lib0 (codecNone (List User)) garbageStore = [] ∧
    getElections lib0 (codecNone (List Election)) garbageStore = [] ∧
    getVotes lib0 (codecNone (List Vote)) garbageStore = [] ∧
    getVotingSessions lib0 (codecNone (List VotingSession)) garbageStore =
      [] ∧
    getSecurityLogs lib0 (codecNone (List SecurityLog)) garbageStore = [] ∧
    getElectionResults lib0 (codecNone (List ElectionResults)) garbageStore =
      [] ∧
    getCurrentUser lib0 (codecNone User) garbageStore = none := by
  have h := storage_reads_fail_soft lib0 garbageStore
    (codecNone (List User)) (codecNone (List Election))
    (codecNone (List Vote)) (codecNone (List VotingSession))
    (codecNone (List SecurityLog)) (codecNone (List ElectionResults))
    (codecNone User)
  exact ⟨h.1 "garbage" rfl rfl, h.2.1 "garbage" rfl rfl,
    h.2.2.1 "garbage" rfl rfl, h.2.2.2.1 "garbage" rfl rfl,
    h.2.2.2.2.1 "garbage" rfl rfl, h.2.2.2.2.2.1 "garbage" rfl rfl,
    h.2.2.2.2.2.2 "garbage" rfl rfl⟩

lemma find?_admin_isSome_of_mem {users : List User} {u : User}
    (hu : u ∈ users) (hrole : u.role = Role.admin) :
    (users.find? (fun x => x.role == Role.admin)).isSome :=
  List.find?_isSome.mpr ⟨u, hu, by simp [hrole]⟩

lemma initializeAdminAccount_of_isSome {lib : JsLibs}
    {nowMs nowIso : String} {users : List User}
    (h : (users.find? (fun x => x.role == Role.admin)).isSome) :
    initializeAdminAccount lib nowMs nowIso users = users := by
  cases hf : users.find? (fun x => x.role == Role.admin) with
  | none => rw [hf] at h; simp at h
  | some u => simp [initializeAdminAccount, hf]

lemma initializeAdminAccount_of_none {lib : JsLibs}
    {nowMs nowIso : String} {users : List User}
    (h : users.find? (fun x => x.role == Role.admin) = none) :
    initializeAdminAccount lib nowMs nowIso users =
      users ++ [adminRecord lib nowMs nowIso] := by
  simp [initializeAdminAccount, h]

lemma find?_admin_eq_none {users : List User}
    (h : ∀ u ∈ users, u.role ≠ Role.admin) :
    users.find? (fun x => x.role == Role.admin) = none :=
  List.find?_eq_none.mpr (fun u hu => by simp [h u hu])

lemma admin_count_append_one {users : List User}
    (h : ∀ u ∈ users, u.role ≠ Role.admin) (lib : JsLibs)
    (nowMs nowIso : String) :
    ((users ++ [adminRecord lib nowMs nowIso]).filter
      (fun u => u.role == Role.admin)).length = 1 := by
  rw [List.filter_append]
  have h1 : users.filter (fun u => u.role == Role.admin) = [] :=
    List.filter_eq_nil_iff.mpr (fun u hu => by simp [h u hu])
  have h2 : (adminRecord lib nowMs nowIso).role = Role.admin := rfl
  simp [h1, h2]

lemma foldl_initializeAdminAccount_fixed (lib : JsLibs)
    (calls : List (String × String)) {us : List User}
    (h : (us.find? (fun x => x.role == Role.admin)).isSome) :
    calls.foldl (fun acc c => initializeAdminAccount lib c.1 c.2 acc) us =
      us := by
  induction calls with
  | nil => rfl
  | cons c rs ih =>
      simp only [List.foldl_cons]
      rw [initializeAdminAccount_of_isSome h]
      exact ih

/-- C7: initializeAdminAccount is idempotent: it changes nothing when an
admin-role user exists, appends exactly the fixed admin record (leaving
exactly one admin) when none exists, and any nonempty sequence of calls
starting from an admin-free collection leaves exactly one admin record. -/
theorem initializeAdminAccount_idempotent_single_admin (lib : JsLibs)
    (nowMs nowIso : String) (users : List User) :
    ((∃ u ∈ users, u.role = Role.admin) →
      initializeAdminAccount lib nowMs nowIso users = users) ∧
    ((∀ u ∈ users, u.role ≠ Role.admin) →
      initializeAdminAccount lib nowMs nowIso users =
        users ++ [adminRecord lib nowMs nowIso] ∧
      ((initializeAdminAccount lib nowMs nowIso users).filter
        (fun u => u.role == Role.admin)).length = 1) ∧
    (∀ nowMs2 nowIso2 : String,
      initializeAdminAccount lib nowMs2 nowIso2
        (initializeAdminAccount lib nowMs nowIso users) =
      initializeAdminAccount lib nowMs nowIso users) ∧
    (∀ calls : List (String × String), calls ≠ [] →
      (∀ u ∈ users, u.role ≠ Role.admin) →
      ((calls.foldl (fun us c => initializeAdminAccount lib c.1 c.2 us)
        users).filter (fun u => u.role == Role.admin)).length = 1) := by
  refine ⟨?_, ?_, ?_, ?_⟩
  · rintro ⟨u, hu, hr⟩
    exact initializeAdminAccount_of_isSome (find?_admin_isSome_of_mem hu hr)
  · intro h
    have hn := find?_admin_eq_none h
    refine ⟨initializeAdminAccount_of_none hn, ?_⟩
    rw [initializeAdminAccount_of_none hn]
    exact admin_count_append_one h lib nowMs nowIso
  · intro nowMs2 nowIso2
    cases hf : users.find? (fun x => x.role == Role.admin) with
    | some u =>
        have h1 : initializeAdminAccount lib nowMs nowIso users = users :=
          initializeAdminAccount_of_isSome (by rw [hf]; rfl)
        rw [h1]
        exact initializeAdminAccount_of_isSome (by rw [hf]; rfl)
    | none =>
        rw [initializeAdminAccount_of_none hf]
        exact initializeAdminAccount_of_isSome
          (find?_admin_isSome_of_mem
            (List.mem_append_right users (List.mem_singleton.mpr rfl)) rfl)
  · intro calls hne h
    obtain ⟨c, rest, rfl⟩ := List.exists_cons_of_ne_nil hne
    have hn := find?_admin_eq_none h
    simp only [List.foldl_cons]
    rw [initializeAdminAccount_of_none hn]
    rw [foldl_initializeAdminAccount_fixed lib rest
      (find?_admin_isSome_of_mem
        (List.mem_append_right users (List.mem_singleton.mpr rfl)) rfl)]
    exact admin_count_append_one h lib c.1 c.2

theorem initializeAdminAccount_witness :
    initializeAdminAccount lib0 "1" "t" [voter0] =
      [voter0] ++ [adminRecord lib0 "1" "t"] ∧
    ((initializeAdminAccount lib0 "1" "t" [voter0]).filter
      (fun u => u.role == Role.admin)).length = 1 ∧
    initializeAdminAccount lib0 "2" "t2"
      (initializeAdminAccount lib0 "1" "t" [voter0]) =
      initializeAdminAccount lib0 "1" "t" [voter0] := by
  have h := initializeAdminAccount_idempotent_single_admin lib0 "1" "t"
    [voter0]
  exact ⟨(h.2.1 (by decide)).1, (h.2.1 (by decide)).2, h.2.2.1 "2" "t2"⟩

/-- C8: the admin delete-election action removes the election with the given
id and every vote belonging to it, keeps every other election and every vote
of a different election (in order), and leaves users and sessions alone. -/
theorem deleteElection_cascade (eid nowMs nowIso : String)
    (st : StorageState) :
    (∀ e : Election, e ∈ (deleteElection eid nowMs nowIso st).elections ↔
      e ∈ st.elections ∧ e.id ≠ eid) ∧
    (∀ v : Vote, v ∈ (deleteElection eid nowMs nowIso st).votes ↔
      v ∈ st.votes ∧ v.electionId ≠ eid) ∧
    List.Sublist (deleteElection eid nowMs nowIso st).elections
      st.elections ∧
    List.Sublist (deleteElection eid nowMs nowIso st).votes st.votes ∧
    (deleteElection eid nowMs nowIso st).users = st.users ∧
    (deleteElection eid nowMs nowIso st).sessions = st.sessions := by
  refine ⟨fun e => ?_, fun v => ?_, ?_, ?_, rfl, rfl⟩
  · simp [deleteElection, List.mem_filter]
  · simp [deleteElection, List.mem_filter]
  · exact List.filter_sublist st.elections
  · exact List.filter_sublist st.votes

/-- C4: entering the voting flow for an already-voted (user, election) pair
cancels before any session is created: a high-severity double_vote_attempt
entry is appended to the security log, the entry status is cancelled, and
sessions (and every other collection) are untouched. -/
theorem votingInterfaceInit_double_vote_guard (election : Election)
    (user : User)
    (voterToken sessionId expiresAt userAgent nowMs nowIso : String)
    (st : StorageState)
    (hvoted : hasUserVotedInElection st.users user.id election.id = true) :
    (votingInterfaceInit election user voterToken sessionId expiresAt
      userAgent nowMs nowIso st).2 = FlowEntry.cancelled ∧
    (votingInterfaceInit election user voterToken sessionId expiresAt
      userAgent nowMs nowIso st).1.sessions = st.sessions ∧
    (votingInterfaceInit election user voterToken sessionId expiresAt
      userAgent nowMs nowIso st).1.users = st.users ∧
    (votingInterfaceInit election user voterToken sessionId expiresAt
      userAgent nowMs nowIso st).1.votes = st.votes ∧
    (votingInterfaceInit election user voterToken sessionId expiresAt
      userAgent nowMs nowIso st).1.elections = st.elections ∧
    (∃ entry : SecurityLog,
      (votingInterfaceInit election user voterToken sessionId expiresAt
        userAgent nowMs nowIso st).1.logs = st.logs ++ [entry] ∧
      entry.type = LogType.double_vote_attempt ∧
      entry.severity = Severity.high) := by
  refine ⟨?_, ?_, ?_, ?_, ?_, ?_⟩
  · simp [votingInterfaceInit, hvoted]
  · simp [votingInterfaceInit, hvoted]
  · simp [votingInterfaceInit, hvoted]
  · simp [votingInterfaceInit, hvoted]
  · simp [votingInterfaceInit, hvoted]
  · refine ⟨{ id := nowMs
              type := LogType.double_vote_attempt
              message := "User attempted to vote again in election: " ++
                election.title
              userId := some user.id
              electionId := some election.id
              timestamp := nowIso
              ipAddress := "localhost"
              severity := Severity.high }, ?_, rfl, rfl⟩
    simp [votingInterfaceInit, hvoted, addSecurityLog]

theorem votingInterfaceInit_guard_witness :
    (votingInterfaceInit election0 votedVoter "tokX" "sX" "exp" "ua" "9"
      "t9" st1).2 = FlowEntry.cancelled ∧
    (votingInterfaceInit election0 votedVoter "tokX" "sX" "exp" "ua" "9"
      "t9" st1).1.sessions = st1.sessions := by
  have h := votingInterfaceInit_double_vote_guard election0 votedVoter
    "tokX" "sX" "exp" "ua" "9" "t9" st1 (by decide)
  exact ⟨h.1, h.2.1⟩

lemma find?_map_of_pred_eq {α : Type} (f : α → α) (p : α → Bool)
    (l : List α) (hf : ∀ a, p (f a) = p a) :
    (l.map f).find? p = (l.find? p).map f := by
  induction l with
  | nil => rfl
  | cons x xs ih =>
      simp only [List.map_cons]
      by_cases hpx : p x = true
      · rw [List.find?_cons_of_pos _ (by rw [hf x]; exact hpx),
          List.find?_cons_of_pos _ hpx, Option.map_some']
      · have hfx : ¬p (f x) = true := by rw [hf x]; exact hpx
        rw [List.find?_cons_of_neg _ hfx, List.find?_cons_of_neg _ hpx, ih]

/-- C2: a submission flow that completes (the user had not voted, and is
present in the users collection) produces: votes extended by exactly one
record per non-empty selection entry (with matching position ids), the
election's totalVotes counter increased by exactly that count,
hasUserVotedInElection flipped to true for the acting user, and every
session with the flow's session id marked inactive. -/
theorem submitVotes_success_effects (lib : JsLibs) (election : Election)
    (user : User) (votingSession : VotingSession)
    (selections : List (String × String)) (freshId : String → String)
    (nowMs nowIso : String) (st : StorageState)
    (hnotvoted : hasUserVotedInElection st.users user.id election.id =
      false)
    (hmem : (st.users.find? (fun u => u.id == user.id)).isSome) :
    (submitVotes lib election user votingSession selections freshId nowMs
      nowIso st).2 = SubmitResult.completed ∧
    (submitVotes lib election user votingSession selections freshId nowMs
      nowIso st).1.votes =
      st.votes ++ (selections.filter (fun sel => sel.2 != "")).map
        (voteRecord lib election votingSession nowIso freshId) ∧
    (submitVotes lib election user votingSession selections freshId nowMs
      nowIso st).1.votes.length =
      st.votes.length +
        (selections.filter (fun sel => sel.2 != "")).length ∧
    ((submitVotes lib election user votingSession selections freshId nowMs
      nowIso st).1.votes.drop st.votes.length).map
        (fun v => v.positionId) =
      (selections.filter (fun sel => sel.2 != "")).map (fun sel => sel.1) ∧
    ((submitVotes lib election user votingSession selections freshId nowMs
      nowIso st).1.elections.find? (fun e => e.id == election.id)).map
        (fun e => e.totalVotes) =
      (st.elections.find? (fun e => e.id == election.id)).map
        (fun e => e.totalVotes +
          (selections.filter (fun sel => sel.2 != "")).length) ∧
    hasUserVotedInElection
      (submitVotes lib election user votingSession selections freshId nowMs
        nowIso st).1.users user.id election.id = true ∧
    (∀ s ∈ (submitVotes lib election user votingSession selections freshId
      nowMs nowIso st).1.sessions,
      s.sessionId = votingSession.sessionId → s.isActive = false) := by
  have hneg : ¬hasUserVotedInElection st.users user.id election.id = true :=
    by rw [hnotvoted]; simp
  refine ⟨?_, ?_, ?_, ?_, ?_, ?_, ?_⟩
  · simp [submitVotes, hnotvoted]
  · simp [submitVotes, hnotvoted]
  · simp [submitVotes, hnotvoted]
  · simp only [submitVotes, hnotvoted, Bool.false_eq_true, if_false,
      List.drop_left, List.map_map]
    rfl
  · simp only [submitVotes, hnotvoted, Bool.false_eq_true, if_false]
    rw [find?_map_of_pred_eq _ (fun e => e.id == election.id) st.elections
      (fun e => by by_cases h : e.id == election.id <;> simp [h])]
    cases hfind : st.elections.find? (fun e => e.id == election.id) with
    | none => rfl
    | some e =>
        have hid := List.find?_some hfind
        simp only [Option.map_some']
        rw [if_pos hid]
        simp
  · simp only [submitVotes, hnotvoted, Bool.false_eq_true, if_false]
    obtain ⟨u0, hu0⟩ := Option.isSome_iff_exists.mp hmem
    have hid := List.find?_some hu0
    unfold hasUserVotedInElection
    rw [find?_map_of_pred_eq _ (fun u => u.id == user.id) st.users
      (fun u => by by_cases h : u.id == user.id <;> simp [h])]
    rw [hu0]
    simp only [Option.map_some']
    rw [if_pos hid]
    simp [jsLookup]
  · simp only [submitVotes, hnotvoted, Bool.false_eq_true, if_false]
    intro s hs hsid
    obtain ⟨s0, hs0, rfl⟩ := List.mem_map.mp hs
    by_cases h : s0.sessionId == votingSession.sessionId
    · simp [h]
    · exfalso
      rw [if_neg h] at hsid
      exact h (by simp [hsid])

theorem submitVotes_success_witness :
    (submitVotes lib0 election0 voter0 sess0 [("p1", "c1")]
      (fun _ => "vid") "1" "t0" st0).2 = SubmitResult.completed ∧
    (submitVotes lib0 election0 voter0 sess0 [("p1", "c1")]
      (fun _ => "vid") "1" "t0" st0).1.votes.length =
      st0.votes.length + 1 ∧
    ((submitVotes lib0 election0 voter0 sess0 [("p1", "c1")]
      (fun _ => "vid") "1" "t0" st0).1.elections.find?
        (fun e => e.id == election0.id)).map (fun e => e.totalVotes) =
      (st0.elections.find? (fun e => e.id == election0.id)).map
        (fun e => e.totalVotes + 1) ∧
    hasUserVotedInElection
      (submitVotes lib0 election0 voter0 sess0 [("p1", "c1")]
        (fun _ => "vid") "1" "t0" st0).1.users voter0.id election0.id =
      true := by
  have h := submitVotes_success_effects lib0 election0 voter0 sess0
    [("p1", "c1")] (fun _ => "vid") "1" "t0" st0 (by decide) (by decide)
  exact ⟨h.1, h.2.2.1, h.2.2.2.2.1, h.2.2.2.2.2.1⟩

/-- C9: every vote record constructed by the submission flow carries a
cryptographicHash equal to hashVote of its own five fields, so
verifyVoteIntegrity accepts it. -/
theorem submitVotes_votes_verify (lib : JsLibs) (election : Election)
    (user : User) (votingSession : VotingSession)
    (selections : List (String × String)) (freshId : String → String)
    (nowMs nowIso : String) (st : StorageState) :
    ∀ v ∈ (submitVotes lib election user votingSession selections freshId
      nowMs nowIso st).1.votes.drop st.votes.length,
      v.cryptographicHash = hashVote lib
        { electionId := v.electionId
          positionId := v.positionId
          candidateId := v.candidateId
          voterToken := v.voterToken
          timestamp := v.timestamp } ∧
      verifyVoteIntegrity lib v = true := by
  intro v hv
  by_cases hvoted :
      hasUserVotedInElection st.users user.id election.id = true
  · simp [submitVotes, hvoted, List.drop_length] at hv
  · simp only [submitVotes, hvoted, Bool.false_eq_true, if_false,
      List.drop_left] at hv
    obtain ⟨sel, hsel, rfl⟩ := List.mem_map.mp hv
    exact ⟨rfl, by simp [verifyVoteIntegrity, voteRecord]⟩

theorem submitVotes_votes_verify_witness :
    voteRec0.cryptographicHash = hashVote lib0
      { electionId := voteRec0.electionId
        positionId := voteRec0.positionId
        candidateId := voteRec0.candidateId
        voterToken := voteRec0.voterToken
        timestamp := voteRec0.timestamp } ∧
    verifyVoteIntegrity lib0 voteRec0 = true := by
  have h := submitVotes_votes_verify lib0 election0 voter0 sess0
    [("p1", "c1")] (fun _ => "vid") "1" "t0" st0
  exact h voteRec0 (by decide)

lemma filter_count_orderedInsert (x : CandidateResult)
    (ys : List CandidateResult) (k : Nat) :
    (List.orderedInsert byVotesDesc x ys).filter
      (fun c => c.voteCount == k) =
    (if x.voteCount == k then
      x :: ys.filter (fun c => c.voteCount == k)
    else ys.filter (fun c => c.voteCount == k)) := by
  induction ys with
  | nil =>
      by_cases hx : x.voteCount == k <;>
        simp [List.orderedInsert, List.filter, hx]
  | cons y ys ih =>
      rw [List.orderedInsert]
      by_cases h : byVotesDesc x y
      · rw [if_pos h]
        simp only [List.filter_cons]
      · rw [if_neg h]
        simp only [List.filter_cons]
        by_cases hy : y.voteCount == k
        · by_cases hx : x.voteCount == k
          · exfalso
            have h1 : x.voteCount = k := by simpa using hx
            have h2 : y.voteCount = k := by simpa using hy
            exact h (by unfold byVotesDesc; rw [h1, h2])
          · simp [hy, hx, ih]
        · simp [hy, ih]

lemma filter_count_insertionSort (l : List CandidateResult) (k : Nat) :
    (List.insertionSort byVotesDesc l).filter (fun c => c.voteCount == k) =
      l.filter (fun c => c.voteCount == k) := by
  induction l with
  | nil => rfl
  | cons x xs ih =>
      rw [List.insertionSort, filter_count_orderedInsert, ih,
        List.filter_cons]

/-- C3: result tabulation computes, per position, each candidate's vote
count over that position's votes and its percentage of that position's own
vote total; candidates are sorted by count descending with ties keeping
encounter order (equal-count candidates filter out of the sorted list in
their original map order); the winner tag goes to the first-ranked candidate
only when its count is positive and it then dominates every candidate of
the position; and on the concrete example (A three votes, B one, C none;
a second position with no votes) the ordering is A, B, C with percentages
75, 25, 0, A is the winner, and the empty position has none. -/
theorem calculateResults_tabulation (lib : JsLibs)
    (sr : ElectionResults → String) (users : List User)
    (allVotes : List Vote) (election : Election) :
    (∀ pr ∈ (calculateResults lib sr users allVotes election).positions,
      ∀ cr ∈ pr.candidates,
        cr.voteCount = (((getVotesByElection allVotes election.id).filter
            (fun v => v.positionId == pr.positionId)).filter
            (fun v => v.candidateId == cr.candidateId)).length ∧
        cr.percentage =
          (if pr.totalVotes > 0 then
            ((cr.voteCount : ℚ) / (pr.totalVotes : ℚ)) * 100
          else 0) ∧
        pr.totalVotes = ((getVotesByElection allVotes election.id).filter
          (fun v => v.positionId == pr.positionId)).length) ∧
    (∀ pr ∈ (calculateResults lib sr users allVotes election).positions,
      List.Sorted byVotesDesc pr.candidates) ∧
    (∀ position ∈ election.positions, ∀ k : Nat,
      (positionResult (getVotesByElection allVotes election.id)
          position).candidates.filter (fun c => c.voteCount == k) =
        (position.candidates.map (candidateResult
          ((getVotesByElection allVotes election.id).filter
            (fun v => v.positionId == position.id))
          (((getVotesByElection allVotes election.id).filter
            (fun v => v.positionId == position.id)).length))).filter
          (fun c => c.voteCount == k) ∧
      positionResult (getVotesByElection allVotes election.id) position ∈
        (calculateResults lib sr users allVotes election).positions) ∧
    (∀ pr ∈ (calculateResults lib sr users allVotes election).positions,
      (∀ cr, positionWinner pr = some cr →
        cr ∈ pr.candidates ∧ 0 < cr.voteCount ∧
        ∀ other ∈ pr.candidates, other.voteCount ≤ cr.voteCount) ∧
      ((∀ cr ∈ pr.candidates, cr.voteCount = 0) →
        positionWinner pr = none)) ∧
    ((calculateResults lib0 stringifyResults0 [] ballots2
        election2).positions.map (fun pr => pr.candidates.map
          (fun cr => (cr.candidateId, cr.voteCount))) =
      [[("A", 3), ("B", 1), ("C", 0)], [("D", 0)]]) ∧
    ((calculateResults lib0 stringifyResults0 [] ballots2
        election2).positions.map (fun pr => pr.candidates.map
          (fun cr => cr.percentage)) =
      [[(75 : ℚ), (25 : ℚ), (0 : ℚ)], [(0 : ℚ)]]) ∧
    ((calculateResults lib0 stringifyResults0 [] ballots2
        election2).positions.map (fun pr =>
          (positionWinner pr).map (fun cr => cr.candidateId)) =
      [some "A", none]) := by
  refine ⟨?_, ?_, ?_, ?_, by decide, ?_, by decide⟩
  · intro pr hpr cr hcr
    obtain ⟨position, hpos, rfl⟩ := List.mem_map.mp hpr
    have hcr2 := (List.mem_insertionSort byVotesDesc).mp hcr
    obtain ⟨cand, hcand, rfl⟩ := List.mem_map.mp hcr2
    exact ⟨rfl, rfl, rfl⟩
  · intro pr hpr
    obtain ⟨position, hpos, rfl⟩ := List.mem_map.mp hpr
    exact List.sorted_insertionSort byVotesDesc _
  · intro position hpos k
    exact ⟨filter_count_insertionSort _ k,
      List.mem_map_of_mem _ hpos⟩
  · intro pr hpr
    have hsorted : List.Sorted byVotesDesc pr.candidates := by
      obtain ⟨position, hpos, rfl⟩ := List.mem_map.mp hpr
      exact List.sorted_insertionSort byVotesDesc _
    constructor
    · intro cr hw
      cases hc : pr.candidates with
      | nil =>
          rw [positionWinner, hc] at hw
          exact Option.noConfusion hw
      | cons c rest =>
          have hw2 : (if c.voteCount > 0 then some c else none) =
              some cr := by
            rw [positionWinner, hc] at hw
            exact hw
          by_cases h0 : c.voteCount > 0
          · rw [if_pos h0, Option.some_inj] at hw2
            subst hw2
            rw [hc] at hsorted
            refine ⟨List.mem_cons_self _ _, h0, ?_⟩
            intro other hother
            rcases List.mem_cons.mp hother with h | h
            · rw [h]
            · exact (List.pairwise_cons.mp hsorted).1 other h
          · rw [if_neg h0] at hw2
            exact Option.noConfusion hw2
    · intro hall
      cases hc : pr.candidates with
      | nil => rw [positionWinner, hc]
      | cons c rest =>
          rw [positionWinner, hc]
          have hz := hall c (by rw [hc]; exact List.mem_cons_self _ _)
          simp [hz]
  · have hpv2 : (getVotesByElection ballots2 election2.id).filter
        (fun v => v.positionId == posPr.id) = ballots2 := by decide
    have hpvTz : (getVotesByElection ballots2 election2.id).filter
        (fun v => v.positionId == posTz.id) = [] := by decide
    have hl : ballots2.length = 4 := by decide
    have hcA : (ballots2.filter (fun v => v.candidateId == "A")).length =
        3 := by decide
    have hcB : (ballots2.filter (fun v => v.candidateId == "B")).length =
        1 := by decide
    have hcC : (ballots2.filter (fun v => v.candidateId == "C")).length =
        0 := by decide
    have hA : candidateResult ballots2 ballots2.length candA =
        { candidateId := "A", candidateName := "Alice", voteCount := 3
          percentage := (75 : ℚ) } := by
      norm_num [candidateResult, candA, hcA, hl]
    have hB : candidateResult ballots2 ballots2.length candB =
        { candidateId := "B", candidateName := "Bob", voteCount := 1
          percentage := (25 : ℚ) } := by
      norm_num [candidateResult, candB, hcB, hl]
    have hC : candidateResult ballots2 ballots2.length candC =
        { candidateId := "C", candidateName := "Cara", voteCount := 0
          percentage := (0 : ℚ) } := by
      norm_num [candidateResult, candC, hcC, hl]
    have hD : candidateResult ([] : List Vote)
        (List.length ([] : List Vote)) candD =
        { candidateId := "D", candidateName := "Dan", voteCount := 0
          percentage := (0 : ℚ) } := by
      norm_num [candidateResult, candD]
    have hPr : positionResult (getVotesByElection ballots2 election2.id)
        posPr =
        { positionId := "pr", positionTitle := "President"
          candidates :=
            [{ candidateId := "A", candidateName := "Alice", voteCount := 3
               percentage := (75 : ℚ) },
             { candidateId := "B", candidateName := "Bob", voteCount := 1
               percentage := (25 : ℚ) },
             { candidateId := "C", candidateName := "Cara", voteCount := 0
               percentage := (0 : ℚ) }]
          totalVotes := 4 } := by
      have hcands : posPr.candidates = [candA, candB, candC] := rfl
      simp only [positionResult]
      rw [hpv2, hcands]
      simp only [List.map_cons, List.map_nil]
      rw [hA, hB, hC, hl]
      decide
    have hTz : positionResult (getVotesByElection ballots2 election2.id)
        posTz =
        { positionId := "tz", positionTitle := "Treasurer"
          candidates :=
            [{ candidateId := "D", candidateName := "Dan", voteCount := 0
               percentage := (0 : ℚ) }]
          totalVotes := 0 } := by
      have hcands : posTz.candidates = [candD] := rfl
      simp only [positionResult]
      rw [hpvTz, hcands]
      simp only [List.map_cons, List.map_nil]
      rw [hD]
      decide
    have hpos : (calculateResults lib0 stringifyResults0 [] ballots2
        election2).positions =
        [positionResult (getVotesByElection ballots2 election2.id) posPr,
         positionResult (getVotesByElection ballots2 election2.id) posTz] :=
      rfl
    rw [hpos, hPr, hTz]
    decide

theorem calculateResults_tabulation_witness :
    List.Sorted byVotesDesc
      (positionResult (getVotesByElection ballots2 "e2")
        posPr).candidates ∧
    positionWinner (positionResult (getVotesByElection ballots2 "e2")
      posTz) = none := by
  have h := calculateResults_tabulation lib0 stringifyResults0 [] ballots2
    election2
  have hmemPr : positionResult (getVotesByElection ballots2 "e2") posPr ∈
      (calculateResults lib0 stringifyResults0 [] ballots2
        election2).positions :=
    List.mem_map_of_mem _ (by decide : posPr ∈ election2.positions)
  have hmemTz : positionResult (getVotesByElection ballots2 "e2") posTz ∈
      (calculateResults lib0 stringifyResults0 [] ballots2
        election2).positions :=
    List.mem_map_of_mem _ (by decide : posTz ∈ election2.positions)
  exact ⟨h.2.1 _ hmemPr,
    (h.2.2.2.1 (positionResult (getVotesByElection ballots2 "e2") posTz)
      hmemTz).2 (by decide)⟩

/-- C10: tabulation never divides by zero: a position with zero total votes
gives every candidate percentage exactly 0, and a zero count of registered
voter-role users gives turnout exactly 0. -/
theorem calculateResults_zero_guards (lib : JsLibs)
    (sr : ElectionResults → String) (users : List User)
    (allVotes : List Vote) (election : Election) :
    (∀ pr ∈ (calculateResults lib sr users allVotes election).positions,
      pr.totalVotes = 0 → ∀ cr ∈ pr.candidates, cr.percentage = 0) ∧
    ((users.filter (fun u => u.role == Role.voter)).length = 0 →
      (calculateResults lib sr users allVotes election).turnoutPercentage =
        0) := by
  constructor
  · intro pr hpr h0 cr hcr
    obtain ⟨position, hpos, rfl⟩ := List.mem_map.mp hpr
    have hcr2 := (List.mem_insertionSort byVotesDesc).mp hcr
    obtain ⟨cand, hcand, rfl⟩ := List.mem_map.mp hcr2
    have h0' : ((getVotesByElection allVotes election.id).filter
        (fun v => v.positionId == position.id)).length = 0 := h0
    simp [candidateResult, h0']
  · intro h0
    simp [calculateResults, h0]

theorem calculateResults_zero_guards_witness :
    (∀ cr ∈ (positionResult (getVotesByElection ballots2 "e2")
      posTz).candidates, cr.percentage = 0) ∧
    (calculateResults lib0 stringifyResults0 [] ballots2
      election2).turnoutPercentage = 0 := by
  have h := calculateResults_zero_guards lib0 stringifyResults0 [] ballots2
    election2
  have hmemTz : positionResult (getVotesByElection ballots2 "e2") posTz ∈
      (calculateResults lib0 stringifyResults0 [] ballots2
        election2).positions :=
    List.mem_map_of_mem _ (by decide : posTz ∈ election2.positions)
  exact ⟨h.1 (positionResult (getVotesByElection ballots2 "e2") posTz)
    hmemTz (by decide), h.2 (by decide)⟩

end SecureVoting
